import Mathlib

/-!
Shallow embedding of the conversation-thread persistence and session-state
core of `src/app.py` (a two-tab chat front end), together with proofs of the
specification's claims about it.

Modelling conventions:
* JSON documents are modelled by the AST `JVal`; Python's `json.dump` of a
  message list writes the corresponding `JVal.jarr`, and `json.load` either
  recovers the stored value or raises (`FileEntry.corrupt` stands for bytes
  that do not parse).
* The file system is an association list from paths to file entries; the
  first binding for a path is its current content.
* Python's salted string `hash` is an arbitrary parameter `pyhash`; every
  theorem quantifies over it.
* Operations that can raise in Python take an explicit outcome parameter
  (`WriteOutcome`, the `ioErr` flag, `AgentResult`), and a `try/except`
  block appears as the total function the handler produces, while code with
  no handler is `Except`-valued so that a propagating exception is visible.
-/

namespace MitreApp

/-- JSON values, as produced by Python's `json` module (numbers restricted to
integers, which suffices for every claim). -/
inductive JVal where
  | jnull
  | jbool (b : Bool)
  | jnum (n : Int)
  | jstr (s : String)
  | jarr (elems : List JVal)
  | jobj (fields : List (String × JVal))

/-- Content of an on-disk file: either bytes that parse as a JSON value, or
bytes on which `json.load` raises `JSONDecodeError`. -/
inductive FileEntry where
  | corrupt
  | json (v : JVal)

/-- The file system: an association list from paths to entries; the first
binding for a path is its current content. -/
abbrev FS := List (String × FileEntry)

/-- Current content of the file at path `p`, if one exists. -/
def fsRead (fs : FS) (p : String) : Option FileEntry :=
  (fs.find? (fun e => e.1 == p)).map (·.2)

/-- Overwrite (or create) the file at path `p`. -/
def fsWrite (fs : FS) (p : String) (e : FileEntry) : FS :=
  (p, e) :: fs.filter (fun q => q.1 != p)

/-- `os.remove p`. -/
def fsRemove (fs : FS) (p : String) : FS :=
  fs.filter (fun q => q.1 != p)

/-- `HISTORY_DIR = "chat_history"` (app.py line 11). -/
def HISTORY_DIR : String := "chat_history"

/-- `DEFAULT_THREAD_ID = "start-here"` (app.py line 12). -/
def DEFAULT_THREAD_ID : String := "start-here"

/-- The character class of `re.sub(r'[\\/*?:"<>|]', "", filename)`
(app.py line 23). -/
def forbidden_chars : List Char :=
  ['\\', '/', '*', '?', ':', '\"', '<', '>', '|']

/-- Python `str.strip` with a single strip character: removes every leading
and trailing occurrence of `c`. -/
def strip_char (c : Char) (l : List Char) : List Char :=
  ((l.dropWhile (· == c)).reverse.dropWhile (· == c)).reverse

/-- The value of the local variable `sanitized` in `sanitize_filename` just
before the fallback test: forbidden characters removed, spaces replaced by
underscores (app.py lines 23-24). -/
def pre_sanitized (filename : String) : String :=
  String.mk (((filename.data.filter (fun c => !forbidden_chars.contains c)).map
    (fun c => if c == ' ' then '_' else c)))

/-- `sanitize_filename` (app.py lines 21-27).  `pyhash` stands for Python's
(process-salted, but fixed within a process) builtin `hash` on strings. -/
def sanitize_filename (pyhash : String → Int) (filename : String) : String :=
  let sanitized := pre_sanitized filename
  if sanitized = "" ∨ strip_char '.' sanitized.data = [] then
    "invalid_thread_" ++ toString (pyhash filename)
  else
    sanitized

/-- `get_history_filepath` (app.py lines 30-32): `os.path.join` of
`HISTORY_DIR` and `f"{sanitize_filename(thread_id)}.json"`. -/
def get_history_filepath (pyhash : String → Int) (thread_id : String) : String :=
  HISTORY_DIR ++ "/" ++ sanitize_filename pyhash thread_id ++ ".json"

/-- Python `"role" in msg` / `"content" in msg`: key membership in a dict. -/
def has_key (fields : List (String × JVal)) (k : String) : Bool :=
  fields.any (fun kv => kv.1 == k)

/-- The per-message validation of `load_chat_history` (app.py lines 42-45):
`isinstance(msg, dict) and "role" in msg and "content" in msg`. -/
def is_valid_msg (v : JVal) : Bool :=
  match v with
  | .jobj fields => has_key fields "role" && has_key fields "content"
  | _ => false

/-- The whole structure condition of `load_chat_history` (app.py lines
42-45) as one predicate: the document is a list whose members are all
objects having both a `role` and a `content` key. -/
def valid_history_shape (v : JVal) : Bool :=
  match v with
  | .jarr msgs => msgs.all is_valid_msg
  | _ => false

/-- Exceptions distinguished by `load_chat_history`'s handlers:
`json.JSONDecodeError` versus any other `Exception`. -/
inductive PyExn where
  | jsonDecodeError
  | ioError
  deriving DecidableEq

/-- `open(filepath, "r")` followed by `json.load(f)` (app.py lines 40-41):
raises `ioError` when the read itself fails (`ioErr = true`), raises
`jsonDecodeError` on undecodable bytes, and otherwise yields the stored
JSON value. -/
def open_and_parse (ioErr : Bool) (entry : FileEntry) : Except PyExn JVal :=
  if ioErr then .error .ioError
  else
    match entry with
    | .corrupt => .error .jsonDecodeError
    | .json v => .ok v

/-- `load_chat_history` (app.py lines 35-58).  `ioErr` says whether opening
or reading the existing file raises a non-decode exception; both `except`
arms and the missing-file case return `[]`. -/
def load_chat_history (pyhash : String → Int) (fs : FS) (ioErr : Bool)
    (thread_id : String) : List JVal :=
  let filepath := get_history_filepath pyhash thread_id
  match fsRead fs filepath with
  | some entry =>
    match open_and_parse ioErr entry with
    | .ok history =>
      match history with
      | .jarr msgs => if msgs.all is_valid_msg then msgs else []
      | _ => []
    | .error .jsonDecodeError => []
    | .error .ioError => []
  | none => []

/-- Outcome of the `try` block of `save_chat_history`: the write succeeds;
`open(filepath, "w")` itself raises (file untouched); or the dump raises
after the file was already truncated (file left with partial bytes). -/
inductive WriteOutcome where
  | success
  | failOnOpen
  | failDuringWrite
  deriving DecidableEq

/-- `save_chat_history` (app.py lines 61-68): `open(filepath, "w")` truncates
the file in place and `json.dump(messages, f, indent=2)` writes the array;
the `except` arm only logs, so the function is total on every outcome. -/
def save_chat_history (pyhash : String → Int) (fs : FS) (outcome : WriteOutcome)
    (thread_id : String) (messages : List JVal) : FS :=
  let filepath := get_history_filepath pyhash thread_id
  match outcome with
  | .success => fsWrite fs filepath (.json (.jarr messages))
  | .failOnOpen => fs
  | .failDuringWrite => fsWrite fs filepath .corrupt

/-- `os.listdir HISTORY_DIR` over the association-list file system: the
names, under the directory, of the files in it (app.py line 117). -/
def listdir (fs : FS) (dir : String) : List String :=
  fs.filterMap (fun pe =>
    let d := dir ++ "/"
    if pe.1.data.take d.data.length = d.data then
      some (String.mk (pe.1.data.drop d.data.length))
    else none)

/-- Python `f.endswith(".json")` (app.py line 117). -/
def ends_with_json (f : String) : Bool :=
  List.isSuffixOf ".json".data f.data

/-- Python `filename[:-5]` (app.py line 126): all but the last five
characters. -/
def drop_last5 (f : String) : String :=
  String.mk (f.data.take (f.data.length - 5))

/-- The sidebar thread listing (app.py lines 116-126): files of the history
root named `*.json`, with the extension stripped to recover thread ids. -/
def listThreads (fs : FS) : List String :=
  ((listdir fs HISTORY_DIR).filter ends_with_json).map drop_last5

/-- The session-state fields the persistence core touches:
`st.session_state.chat_histories` (a dict, modelled as an association list
whose first binding wins) and `st.session_state.current_thread_id`. -/
structure SessionSt where
  chat_histories : List (String × List JVal)
  current_thread_id : String

/-- Dict lookup in `chat_histories`. -/
def cacheFind (c : List (String × List JVal)) (tid : String) : Option (List JVal) :=
  (c.find? (fun e => e.1 == tid)).map (·.2)

/-- Python `del chat_histories[tid]`. -/
def cacheErase (c : List (String × List JVal)) (tid : String) :
    List (String × List JVal) :=
  c.filter (fun e => e.1 != tid)

/-- The load-on-demand block (app.py lines 190-197): if the active thread is
not a key of `chat_histories`, load it from disk and cache the result; then
read the current messages with `.get(active_thread_id, [])`. -/
def get_or_load (pyhash : String → Int) (cache : List (String × List JVal))
    (fs : FS) (ioErr : Bool) (tid : String) :
    List (String × List JVal) × List JVal :=
  let cache' :=
    match cacheFind cache tid with
    | some _ => cache
    | none => (tid, load_chat_history pyhash fs ioErr tid) :: cache
  (cache', (cacheFind cache' tid).getD [])

/-- The New Chat handler (app.py lines 102-110): make
`new_thread_id = f"chat_{uuid.uuid4()}"`, point the session at it, register
an empty history for it, and touch no file.  Returns the updated session
state, the (unchanged) file system, and the fresh id. -/
def new_chat (st : SessionSt) (fs : FS) (uuid_str : String) :
    SessionSt × FS × String :=
  let new_thread_id := "chat_" ++ uuid_str
  ({ chat_histories := (new_thread_id, []) :: st.chat_histories,
     current_thread_id := new_thread_id }, fs, new_thread_id)

/-- The Clear Current Thread History handler (app.py lines 160-187):
evict the active thread from the cache; if its file exists, `os.remove` it
(`removeOk` says whether that call raises) and on success reset the active
thread to `DEFAULT_THREAD_ID`; if the file is absent, warn, evict again and
reset to `DEFAULT_THREAD_ID`. -/
def clear_current_thread (pyhash : String → Int) (st : SessionSt) (fs : FS)
    (removeOk : Bool) : SessionSt × FS :=
  let active := st.current_thread_id
  let filepath := get_history_filepath pyhash active
  let cache1 := cacheErase st.chat_histories active
  match fsRead fs filepath with
  | some _ =>
    if removeOk then
      ({ chat_histories := cache1, current_thread_id := DEFAULT_THREAD_ID },
        fsRemove fs filepath)
    else
      ({ chat_histories := cache1, current_thread_id := active }, fs)
  | none =>
    ({ chat_histories := cacheErase cache1 active,
       current_thread_id := DEFAULT_THREAD_ID }, fs)

/-- Result of `mitre_agent.invoke`: a returned string, or a raised
exception rendered as its message text. -/
inductive AgentResult where
  | ok (response : String)
  | exn (e : String)

/-- The error surrogate of the MITRE tab (app.py line 255):
`f"Sorry, an error occurred: {e}"`. -/
def mitre_error_text (e : String) : String :=
  "Sorry, an error occurred: " ++ e

/-- `{"role": "user", "content": prompt}` (app.py line 224). -/
def user_msg (prompt : String) : JVal :=
  .jobj [("role", .jstr "user"), ("content", .jstr prompt)]

/-- `{"role": "assistant", "content": content}` (app.py line 261). -/
def assistant_msg (content : String) : JVal :=
  .jobj [("role", .jstr "assistant"), ("content", .jstr content)]

/-- The MITRE tab dispatch (app.py lines 222-263): on a non-empty prompt,
append and save the user message, invoke the agent inside `try/except`
(the except arm substitutes `mitre_error_text`; an empty response becomes
the no-response placeholder; a missing agent becomes a fixed notice), then
append and save the assistant message.  `o1`/`o2` are the outcomes of the
two saves.  Returns the file system and the in-memory message list. -/
def mitre_dispatch (pyhash : String → Int) (fs : FS) (msgs : List JVal)
    (active : String) (prompt : String) (agent_ready : Bool)
    (result : AgentResult) (o1 o2 : WriteOutcome) : FS × List JVal :=
  if prompt = "" then (fs, msgs)
  else
    let msgs1 := msgs ++ [user_msg prompt]
    let fs1 := save_chat_history pyhash fs o1 active msgs1
    let content :=
      if agent_ready then
        match result with
        | .ok response => if response = "" then "*No response generated.*" else response
        | .exn e => mitre_error_text e
      else "Agent not available."
    let msgs2 := msgs1 ++ [assistant_msg content]
    let fs2 := save_chat_history pyhash fs1 o2 active msgs2
    (fs2, msgs2)

/-- One element of the `messages` field of the vulnerability agent's
response: a `type` tag and a `content` string. -/
structure VulnMessage where
  type : String
  content : String

/-- The vulnerability tab dispatch (app.py lines 291-318): on a non-empty
prompt, append the user message to the tab's in-memory list, then call
`vuln_agent.invoke` with NO surrounding `try/except` — a raised exception
(`Except.error`) propagates out of the handler.  On a normal response, the
last message whose `type` is `"ai"` is appended as the assistant message;
with no such message, only a warning is rendered. -/
def vuln_dispatch (vuln_messages : List JVal) (prompt : String)
    (result : Except String (List VulnMessage)) : Except String (List JVal) :=
  if prompt = "" then .ok vuln_messages
  else
    let msgs1 := vuln_messages ++ [user_msg prompt]
    match result with
    | .error e => .error e
    | .ok response_messages =>
      match (response_messages.filter (fun m => m.type == "ai")).getLast? with
      | some m => .ok (msgs1 ++ [assistant_msg m.content])
      | none => .ok msgs1

/-- A message of the data model: a role (user or assistant) and a content
string. -/
inductive Role where
  | user
  | assistant
  deriving DecidableEq

/-- The JSON spelling of a role. -/
def Role.toStr : Role → String
  | .user => "user"
  | .assistant => "assistant"

/-- A well-formed chat message per the data model. -/
structure Message where
  role : Role
  content : String

/-- The JSON object a `Message` is stored as. -/
def encodeMsg (m : Message) : JVal :=
  .jobj [("role", .jstr m.role.toStr), ("content", .jstr m.content)]

/-- The JSON array elements a message sequence is stored as. -/
def encodeMessages (ms : List Message) : List JVal :=
  ms.map encodeMsg

/-! ### Association-list lemmas shared by the file-system and cache models -/

section AssocLemmas

variable {β : Type}

theorem assoc_find?_filter_ne (l : List (String × β)) (k k' : String) (h : k' ≠ k) :
    (l.filter (fun q => q.1 != k)).find? (fun e => e.1 == k') =
      l.find? (fun e => e.1 == k') := by
  induction l with
  | nil => rfl
  | cons a l ih =>
    by_cases ha : a.1 = k
    · have h2 : (k == k') = false := by
        simp only [beq_eq_false_iff_ne]
        exact Ne.symm h
      simp [List.filter_cons, List.find?_cons, ha, h2, ih]
    · simp [List.filter_cons, List.find?_cons, ha, ih]

theorem assoc_find?_filter_self (l : List (String × β)) (k : String) :
    (l.filter (fun q => q.1 != k)).find? (fun e => e.1 == k) = none := by
  rw [List.find?_eq_none]
  intro x hx
  have hm := List.mem_filter.mp hx
  simp only [bne_iff_ne, ne_eq] at hm
  simp [hm.2]

end AssocLemmas

theorem fsRead_fsWrite_self (fs : FS) (p : String) (e : FileEntry) :
    fsRead (fsWrite fs p e) p = some e := by
  simp [fsRead, fsWrite]

theorem fsRead_fsWrite_ne (fs : FS) (p p' : String) (e : FileEntry) (h : p' ≠ p) :
    fsRead (fsWrite fs p e) p' = fsRead fs p' := by
  unfold fsRead fsWrite
  rw [List.find?_cons_of_neg _ (by simp only [beq_iff_eq]; exact Ne.symm h)]
  rw [assoc_find?_filter_ne _ _ _ h]

theorem fsRead_fsRemove_self (fs : FS) (p : String) :
    fsRead (fsRemove fs p) p = none := by
  unfold fsRead fsRemove
  rw [assoc_find?_filter_self]
  rfl

theorem cacheFind_cons_self (c : List (String × List JVal)) (tid : String)
    (h : List JVal) : cacheFind ((tid, h) :: c) tid = some h := by
  simp [cacheFind]

theorem cacheFind_cacheErase_self (c : List (String × List JVal)) (tid : String) :
    cacheFind (cacheErase c tid) tid = none := by
  unfold cacheFind cacheErase
  rw [assoc_find?_filter_self]
  rfl

/-! ### Validation and load/save helper lemmas -/

theorem is_valid_msg_user (prompt : String) : is_valid_msg (user_msg prompt) = true := rfl

theorem is_valid_msg_assistant (c : String) : is_valid_msg (assistant_msg c) = true := rfl

theorem is_valid_msg_encodeMsg (m : Message) : is_valid_msg (encodeMsg m) = true := rfl

theorem encodeMessages_all_valid (ms : List Message) :
    (encodeMessages ms).all is_valid_msg = true := by
  rw [List.all_eq_true]
  intro x hx
  rcases List.mem_map.mp hx with ⟨a, _, rfl⟩
  exact is_valid_msg_encodeMsg a

/-- After a successful save of a structurally valid message list, load
recovers exactly that list. -/
theorem load_save_of_valid (pyhash : String → Int) (fs : FS) (t : String)
    (msgs : List JVal) (h : msgs.all is_valid_msg = true) :
    load_chat_history pyhash (save_chat_history pyhash fs .success t msgs) false t = msgs := by
  simp [load_chat_history, save_chat_history, fsRead_fsWrite_self, open_and_parse, h]

/-- A missing file loads as the empty history. -/
theorem load_eq_nil_of_not_exists (pyhash : String → Int) (fs : FS) (ioErr : Bool)
    (t : String) (h : fsRead fs (get_history_filepath pyhash t) = none) :
    load_chat_history pyhash fs ioErr t = [] := by
  simp [load_chat_history, h]

/-! ### Claim theorems -/

/-- C2: round-trip of the History Store.  For every thread id `t` and every
sequence of well-formed `Message`s `m` (a role and a content string each),
saving the stored form of `m` and then loading the same thread returns
exactly that stored sequence — and, `encodeMsg` being injective (see
`encodeMsg_injective`), a sequence equal to `m`. -/
theorem save_load_round_trip (pyhash : String → Int) (fs : FS) (t : String)
    (m : List Message) :
    load_chat_history pyhash
        (save_chat_history pyhash fs .success t (encodeMessages m)) false t
      = encodeMessages m :=
  load_save_of_valid pyhash fs t (encodeMessages m) (encodeMessages_all_valid m)

/-- The stored form of a message determines the message. -/
theorem encodeMsg_injective (m m' : Message) (h : encodeMsg m = encodeMsg m') :
    m = m' := by
  rcases m with ⟨r, c⟩
  rcases m' with ⟨r', c'⟩
  cases r <;> cases r' <;> simp_all [encodeMsg, Role.toStr]

/-- C3: `load` never raises to its caller.  Whatever the file system and
read outcome: a missing file, a read that raises a non-decode exception, a
file whose bytes do not decode as JSON, and decoded JSON that is not a list
of objects each having both a `role` and a `content` key all degrade to the
empty sequence.  (The `ioErr` flag and `FileEntry.corrupt` stand for the
two `except` arms; the function itself is total, so no exception escapes.) -/
theorem load_never_raises (pyhash : String → Int) (fs : FS) (ioErr : Bool)
    (t : String) :
    (fsRead fs (get_history_filepath pyhash t) = none →
      load_chat_history pyhash fs ioErr t = []) ∧
    (ioErr = true → load_chat_history pyhash fs ioErr t = []) ∧
    (fsRead fs (get_history_filepath pyhash t) = some .corrupt →
      load_chat_history pyhash fs ioErr t = []) ∧
    (∀ v, fsRead fs (get_history_filepath pyhash t) = some (.json v) →
      valid_history_shape v = false → load_chat_history pyhash fs ioErr t = []) := by
  refine ⟨fun h => load_eq_nil_of_not_exists pyhash fs ioErr t h, ?_, ?_, ?_⟩
  · intro h
    subst h
    rcases hfs : fsRead fs (get_history_filepath pyhash t) with _ | entry <;>
      simp [load_chat_history, hfs, open_and_parse]
  · intro h
    cases ioErr <;> simp [load_chat_history, h, open_and_parse]
  · intro v h hv
    cases ioErr <;>
      cases v <;>
        simp_all [load_chat_history, h, open_and_parse, valid_history_shape]

/-- Witness for C3: each degraded case evaluated at a concrete input. -/
theorem load_never_raises_witness :
    load_chat_history (fun _ => 0) [] false "t" = [] ∧
    load_chat_history (fun _ => 0)
      [("chat_history/t.json", FileEntry.json (JVal.jstr "x"))] true "t" = [] ∧
    load_chat_history (fun _ => 0)
      [("chat_history/t.json", FileEntry.corrupt)] false "t" = [] ∧
    load_chat_history (fun _ => 0)
      [("chat_history/t.json", FileEntry.json (JVal.jstr "x"))] false "t" = [] :=
  ⟨(load_never_raises (fun _ => 0) [] false "t").1 rfl,
   (load_never_raises (fun _ => 0)
     [("chat_history/t.json", FileEntry.json (JVal.jstr "x"))] true "t").2.1 rfl,
   (load_never_raises (fun _ => 0)
     [("chat_history/t.json", FileEntry.corrupt)] false "t").2.2.1 rfl,
   (load_never_raises (fun _ => 0)
     [("chat_history/t.json", FileEntry.json (JVal.jstr "x"))] false "t").2.2.2
     (JVal.jstr "x") rfl rfl⟩

/-- C10: the validation of `load_chat_history` checks only that the `role`
and `content` keys are present, not their values or types: a stored list
whose single object has role `"system"` (outside the user/assistant enum)
and numeric content is returned unchanged. -/
theorem load_checks_only_key_presence :
    load_chat_history (fun _ => 0)
      [("chat_history/t.json", FileEntry.json (JVal.jarr
        [JVal.jobj [("role", JVal.jstr "system"), ("content", JVal.jnum 42)]]))]
      false "t"
      = [JVal.jobj [("role", JVal.jstr "system"), ("content", JVal.jnum 42)]] := rfl

/-- C5 counterexample: the overwrite is NOT atomic from the caller's view.
With a previously valid file (an empty history) and a write that fails
partway, the resulting content is neither the previous content nor the
intended new content — `open(filepath, "w")` truncates in place, so the
partial write corrupts the previously valid file. -/
theorem save_not_atomic :
    ¬ (fsRead (save_chat_history (fun _ => 0)
          [("chat_history/t.json", FileEntry.json (JVal.jarr []))]
          .failDuringWrite "t"
          [JVal.jobj [("role", JVal.jstr "user"), ("content", JVal.jstr "hi")]])
        "chat_history/t.json"
      = fsRead [("chat_history/t.json", FileEntry.json (JVal.jarr []))]
          "chat_history/t.json"
    ∨ fsRead (save_chat_history (fun _ => 0)
          [("chat_history/t.json", FileEntry.json (JVal.jarr []))]
          .failDuringWrite "t"
          [JVal.jobj [("role", JVal.jstr "user"), ("content", JVal.jstr "hi")]])
        "chat_history/t.json"
      = some (FileEntry.json (JVal.jarr
          [JVal.jobj [("role", JVal.jstr "user"), ("content", JVal.jstr "hi")]]))) := by
  intro h
  have h1 : fsRead (save_chat_history (fun _ => 0)
      [("chat_history/t.json", FileEntry.json (JVal.jarr []))]
      .failDuringWrite "t"
      [JVal.jobj [("role", JVal.jstr "user"), ("content", JVal.jstr "hi")]])
      "chat_history/t.json" = some FileEntry.corrupt := rfl
  have h2 : fsRead [("chat_history/t.json", FileEntry.json (JVal.jarr []))]
      "chat_history/t.json" = some (FileEntry.json (JVal.jarr [])) := rfl
  rcases h with h | h <;> rw [h1] at h
  · rw [h2] at h
    injection h with h'
    exact FileEntry.noConfusion h'
  · injection h with h'
    exact FileEntry.noConfusion h'

/-- C5 (amended): `save` writes the full sequence as the JSON array of the
messages on success, touches no other path on any outcome, and is total
(its `except` arm only logs, so it never raises); but when the write fails
partway the thread's own file is left corrupted rather than holding either
the old or the new content, and when `open` itself fails the file system is
unchanged. -/
theorem save_chat_history_amended (pyhash : String → Int) (fs : FS)
    (t : String) (m : List JVal) :
    fsRead (save_chat_history pyhash fs .success t m)
        (get_history_filepath pyhash t) = some (.json (.jarr m)) ∧
    save_chat_history pyhash fs .failOnOpen t m = fs ∧
    fsRead (save_chat_history pyhash fs .failDuringWrite t m)
        (get_history_filepath pyhash t) = some .corrupt ∧
    (∀ o p, p ≠ get_history_filepath pyhash t →
      fsRead (save_chat_history pyhash fs o t m) p = fsRead fs p) := by
  refine ⟨fsRead_fsWrite_self _ _ _, rfl, fsRead_fsWrite_self _ _ _, ?_⟩
  intro o p hp
  cases o with
  | success => exact fsRead_fsWrite_ne _ _ _ _ hp
  | failOnOpen => rfl
  | failDuringWrite => exact fsRead_fsWrite_ne _ _ _ _ hp

/-- Witness for C5 (amended): a path other than the thread's file is
untouched by a successful save. -/
theorem save_chat_history_amended_witness :
    fsRead (save_chat_history (fun _ => 0) [] .success "t" []) "other"
      = fsRead ([] : FS) "other" :=
  (save_chat_history_amended (fun _ => 0) [] "t" []).2.2.2 .success "other"
    (by decide)

/-- C9: the session-cache invariant of the load-on-demand block.  A cached
thread is answered from the cache, with a result independent of the store;
a miss calls `load` once, caches its result, and returns it; and the very
next access for the same thread is answered from the cache with the same
result whatever the store then contains. -/
theorem get_or_load_cache_invariant (pyhash : String → Int)
    (cache : List (String × List JVal)) (fs fs' : FS) (ioErr ioErr' : Bool)
    (tid : String) :
    (∀ h, cacheFind cache tid = some h →
      get_or_load pyhash cache fs ioErr tid = (cache, h)) ∧
    (cacheFind cache tid = none →
      get_or_load pyhash cache fs ioErr tid =
        ((tid, load_chat_history pyhash fs ioErr tid) :: cache,
          load_chat_history pyhash fs ioErr tid) ∧
      get_or_load pyhash ((tid, load_chat_history pyhash fs ioErr tid) :: cache)
          fs' ioErr' tid =
        ((tid, load_chat_history pyhash fs ioErr tid) :: cache,
          load_chat_history pyhash fs ioErr tid)) := by
  refine ⟨?_, ?_⟩
  · intro h hh
    simp [get_or_load, hh]
  · intro hn
    exact ⟨by simp [get_or_load, hn, cacheFind_cons_self],
           by simp [get_or_load, cacheFind_cons_self]⟩

/-- Witness for C9: a cache hit returns the cached list; a miss on an empty
store caches and returns the empty history. -/
theorem get_or_load_cache_invariant_witness :
    get_or_load (fun _ => 0) [("t", [JVal.jstr "m"])] [] false "t"
      = ([("t", [JVal.jstr "m"])], [JVal.jstr "m"]) ∧
    get_or_load (fun _ => 0) [] [] false "t" = ([("t", [])], []) :=
  ⟨(get_or_load_cache_invariant (fun _ => 0) [("t", [JVal.jstr "m"])] [] []
      false false "t").1 [JVal.jstr "m"] rfl,
   ((get_or_load_cache_invariant (fun _ => 0) [] [] [] false false "t").2 rfl).1⟩

/-- C7: the Clear Current Thread History handler.  Run on the active thread
`t` with a succeeding `os.remove`: afterwards `t`'s history file does not
exist on disk, `t` is evicted from the in-memory cache whether or not the
file existed, the active-thread pointer is reset to `DEFAULT_THREAD_ID`,
and a subsequent load-on-demand for `t` yields the empty sequence. -/
theorem clear_current_thread_spec (pyhash : String → Int) (st : SessionSt)
    (fs : FS) :
    fsRead (clear_current_thread pyhash st fs true).2
        (get_history_filepath pyhash st.current_thread_id) = none ∧
    cacheFind (clear_current_thread pyhash st fs true).1.chat_histories
        st.current_thread_id = none ∧
    (clear_current_thread pyhash st fs true).1.current_thread_id
        = DEFAULT_THREAD_ID ∧
    (get_or_load pyhash (clear_current_thread pyhash st fs true).1.chat_histories
        (clear_current_thread pyhash st fs true).2 false st.current_thread_id).2
      = [] := by
  rcases hfs : fsRead fs (get_history_filepath pyhash st.current_thread_id)
      with _ | entry
  · refine ⟨?_, ?_, ?_, ?_⟩
    · simp [clear_current_thread, hfs]
    · simp [clear_current_thread, hfs, cacheFind_cacheErase_self]
    · simp [clear_current_thread, hfs]
    · have hload : load_chat_history pyhash fs false st.current_thread_id = [] :=
        load_eq_nil_of_not_exists pyhash fs false st.current_thread_id hfs
      simp [clear_current_thread, hfs, get_or_load, cacheFind_cacheErase_self,
        cacheFind_cons_self, hload]
  · refine ⟨?_, ?_, ?_, ?_⟩
    · simpa [clear_current_thread, hfs] using
        fsRead_fsRemove_self fs (get_history_filepath pyhash st.current_thread_id)
    · simp [clear_current_thread, hfs, cacheFind_cacheErase_self]
    · simp [clear_current_thread, hfs]
    · have hload : load_chat_history pyhash
          (fsRemove fs (get_history_filepath pyhash st.current_thread_id)) false
          st.current_thread_id = [] :=
        load_eq_nil_of_not_exists pyhash _ false st.current_thread_id
          (fsRead_fsRemove_self fs _)
      simp [clear_current_thread, hfs, get_or_load, cacheFind_cacheErase_self,
        cacheFind_cons_self, hload]

/-- C8: the New Chat handler.  It returns the id `"chat_" ++ uuid`, points
the session at it, registers an empty in-memory sequence for it, writes no
file (the file system is returned unchanged), load-on-demand for the new id
answers `[]` from the cache alone, and if no file existed for the fresh id
before the click, none exists after it. -/
theorem new_chat_spec (pyhash : String → Int) (st : SessionSt) (fs : FS)
    (uuid_str : String) (ioErr : Bool) :
    (new_chat st fs uuid_str).2.2 = "chat_" ++ uuid_str ∧
    (new_chat st fs uuid_str).2.1 = fs ∧
    (new_chat st fs uuid_str).1.current_thread_id = "chat_" ++ uuid_str ∧
    cacheFind (new_chat st fs uuid_str).1.chat_histories ("chat_" ++ uuid_str)
      = some [] ∧
    get_or_load pyhash (new_chat st fs uuid_str).1.chat_histories fs ioErr
        ("chat_" ++ uuid_str)
      = ((new_chat st fs uuid_str).1.chat_histories, []) ∧
    (fsRead fs (get_history_filepath pyhash ("chat_" ++ uuid_str)) = none →
      fsRead (new_chat st fs uuid_str).2.1
          (get_history_filepath pyhash ("chat_" ++ uuid_str)) = none) := by
  refine ⟨rfl, rfl, rfl, cacheFind_cons_self _ _ _, ?_, fun h => h⟩
  simp [get_or_load, new_chat, cacheFind_cons_self]

/-! ### Character-set lemmas for the sanitizer -/

/-- The ten decimal digit characters. -/
def decimal_digits : List Char :=
  ['0', '1', '2', '3', '4', '5', '6', '7', '8', '9']

theorem digitChar_mem_digits {d : Nat} (h : d < 10) :
    Nat.digitChar d ∈ decimal_digits := by
  interval_cases d <;> decide

theorem toDigitsCore_mem_digits :
    ∀ (fuel n : Nat) (acc : List Char),
      (∀ c ∈ acc, c ∈ decimal_digits) →
      ∀ c ∈ Nat.toDigitsCore 10 fuel n acc, c ∈ decimal_digits := by
  intro fuel
  induction fuel with
  | zero => exact fun n acc hacc c hc => hacc c hc
  | succ fuel ih =>
    intro n acc hacc c hc
    simp only [Nat.toDigitsCore] at hc
    by_cases h10 : n / 10 = 0
    · rw [if_pos h10] at hc
      rcases List.mem_cons.mp hc with rfl | hmem
      · exact digitChar_mem_digits (Nat.mod_lt _ (by decide))
      · exact hacc c hmem
    · rw [if_neg h10] at hc
      refine ih _ _ ?_ c hc
      intro c' hc'
      rcases List.mem_cons.mp hc' with rfl | hmem
      · exact digitChar_mem_digits (Nat.mod_lt _ (by decide))
      · exact hacc c' hmem

theorem toString_int_chars (n : Int) :
    ∀ c ∈ (toString n).data, c ∈ decimal_digits ∨ c = '-' := by
  cases n with
  | ofNat m =>
    intro c hc
    left
    have hdata : (toString (Int.ofNat m)).data = Nat.toDigitsCore 10 (m + 1) m [] :=
      rfl
    rw [hdata] at hc
    exact toDigitsCore_mem_digits _ _ _ (by intro c' hc'; cases hc') c hc
  | negSucc m =>
    intro c hc
    have hdata : (toString (Int.negSucc m)).data
        = '-' :: Nat.toDigitsCore 10 (m + 2) (m + 1) [] := rfl
    rw [hdata] at hc
    rcases List.mem_cons.mp hc with rfl | hmem
    · right; rfl
    · left
      exact toDigitsCore_mem_digits _ _ _ (by intro c' hc'; cases hc') c hmem

/-- Every character of the fallback name is neither forbidden nor a space. -/
theorem fallback_chars (n : Int) :
    ∀ c ∈ ("invalid_thread_" ++ toString n).data,
      c ∉ forbidden_chars ∧ c ≠ ' ' := by
  intro c hc
  rw [String.data_append] at hc
  rcases List.mem_append.mp hc with h | h
  · exact (by decide :
      ∀ c ∈ "invalid_thread_".data, c ∉ forbidden_chars ∧ c ≠ ' ') c h
  · rcases toString_int_chars n c h with hd | rfl
    · exact (by decide :
        ∀ c ∈ decimal_digits, c ∉ forbidden_chars ∧ c ≠ ' ') c hd
    · exact (by decide : ('-' : Char) ∉ forbidden_chars ∧ ('-' : Char) ≠ ' ')

/-- Every character surviving sanitization is neither forbidden nor a
space. -/
theorem pre_sanitized_chars (s : String) :
    ∀ c ∈ (pre_sanitized s).data, c ∉ forbidden_chars ∧ c ≠ ' ' := by
  intro c hc
  simp only [pre_sanitized] at hc
  rcases List.mem_map.mp hc with ⟨b, hb, rfl⟩
  have hbf := (List.mem_filter.mp hb).2
  by_cases hsp : (b == ' ') = true
  · rw [if_pos hsp]
    exact ⟨by decide, by decide⟩
  · rw [if_neg hsp]
    refine ⟨?_, ?_⟩
    · intro hmem
      simp only [List.contains] at hbf
      rw [List.elem_eq_true_of_mem hmem] at hbf
      simp at hbf
    · intro hb'
      exact hsp (by rw [hb']; exact beq_self_eq_true ' ')

/-- C1: for every string `s`, `sanitize_filename` returns a non-empty
string with no forbidden character and no space; it is a pure function of
its input (determinism); and exactly when the post-stripping result is
empty or consists only of dots, the result is the fallback name
`invalid_thread_` followed by the rendered hash of the original input. -/
theorem sanitize_filename_spec (pyhash : String → Int) (s : String) :
    sanitize_filename pyhash s ≠ "" ∧
    (∀ c ∈ (sanitize_filename pyhash s).data, c ∉ forbidden_chars ∧ c ≠ ' ') ∧
    (∀ s', s = s' → sanitize_filename pyhash s = sanitize_filename pyhash s') ∧
    ((pre_sanitized s = "" ∨ strip_char '.' (pre_sanitized s).data = []) →
      sanitize_filename pyhash s = "invalid_thread_" ++ toString (pyhash s)) := by
  by_cases hcond : pre_sanitized s = "" ∨ strip_char '.' (pre_sanitized s).data = []
  · have heq : sanitize_filename pyhash s
        = "invalid_thread_" ++ toString (pyhash s) := by
      simp only [sanitize_filename]
      rw [if_pos hcond]
    refine ⟨?_, ?_, fun s' h => by rw [h], fun _ => heq⟩
    · rw [heq]
      intro h
      have hd := congrArg String.data h
      rw [String.data_append] at hd
      have hd' : "invalid_thread_".data ++ (toString (pyhash s)).data = [] := hd
      rcases List.append_eq_nil.mp hd' with ⟨h1, -⟩
      exact absurd h1 (by decide)
    · rw [heq]
      exact fallback_chars (pyhash s)
  · have heq : sanitize_filename pyhash s = pre_sanitized s := by
      simp only [sanitize_filename]
      rw [if_neg hcond]
    have hne : pre_sanitized s ≠ "" := fun h => hcond (Or.inl h)
    refine ⟨?_, ?_, fun s' h => by rw [h], fun hc => absurd hc hcond⟩
    · rw [heq]; exact hne
    · rw [heq]; exact pre_sanitized_chars s

/-- Witness for C1: the all-dots input takes the fallback branch with the
fallback name. -/
theorem sanitize_filename_spec_witness :
    sanitize_filename (fun _ => 0) "..." = "invalid_thread_" ++ toString (0 : Int) :=
  (sanitize_filename_spec (fun _ => 0) "...").2.2.2 (by decide)

/-- Witness for C8 (the spec's Scenario 1): a fresh thread on an empty disk
has no file before or after the click. -/
theorem new_chat_spec_witness :
    fsRead ([] : FS) (get_history_filepath (fun _ => 0) ("chat_" ++ "abc")) = none ∧
    fsRead (new_chat ⟨[], DEFAULT_THREAD_ID⟩ [] "abc").2.1
      (get_history_filepath (fun _ => 0) ("chat_" ++ "abc")) = none :=
  ⟨rfl, (new_chat_spec (fun _ => 0) ⟨[], DEFAULT_THREAD_ID⟩ [] "abc" false).2.2.2.2.2
    rfl⟩

/-! ### Thread-listing lemmas -/

theorem isPrefixOf_append_self (l x : List Char) :
    l.isPrefixOf (l ++ x) = true := by
  induction l with
  | nil => simp [List.isPrefixOf]
  | cons a l ih => simp [List.isPrefixOf, ih]

theorem ends_with_json_append (s : String) :
    ends_with_json (s ++ ".json") = true := by
  unfold ends_with_json
  rw [String.data_append]
  unfold List.isSuffixOf
  rw [List.reverse_append]
  exact isPrefixOf_append_self _ _

theorem drop_last5_append (s : String) : drop_last5 (s ++ ".json") = s := by
  unfold drop_last5
  rw [String.data_append]
  have h5 : (".json").data.length = 5 := rfl
  rw [List.length_append, h5, Nat.add_sub_cancel, List.take_left]

theorem listdir_prepend (fs : FS) (name : String) (e : FileEntry) :
    listdir ((HISTORY_DIR ++ "/" ++ name, e) :: fs) HISTORY_DIR =
      name :: listdir fs HISTORY_DIR := by
  have hc : (HISTORY_DIR ++ "/" ++ name).data.take (HISTORY_DIR ++ "/").data.length
      = (HISTORY_DIR ++ "/").data := by
    rw [String.data_append]
    exact List.take_left _ _
  have hd : (HISTORY_DIR ++ "/" ++ name).data.drop (HISTORY_DIR ++ "/").data.length
      = name.data := by
    rw [String.data_append]
    exact List.drop_left _ _
  have hmk : String.mk name.data = name := rfl
  simp only [listdir, List.filterMap_cons, hc, hd, hmk, if_true]

/-- C6 counterexample: after `save("a b", [])` the sidebar listing contains
the sanitized name `"a_b"`, but not the thread id `"a b"` itself. -/
theorem listThreads_missing_original_id :
    ¬ ("a b" ∈ listThreads (save_chat_history (fun _ => 0) [] .success "a b" [])) := by
  decide

/-- C6 (amended): after a successful `save(t, m)`, listing the history
root's `.json` files and stripping the extension recovers
`sanitize_filename t` — and hence `t` itself exactly when `t` is already
sanitized. -/
theorem listThreads_after_save (pyhash : String → Int) (fs : FS) (t : String)
    (m : List JVal) :
    sanitize_filename pyhash t
        ∈ listThreads (save_chat_history pyhash fs .success t m) ∧
    (sanitize_filename pyhash t = t →
      t ∈ listThreads (save_chat_history pyhash fs .success t m)) := by
  have hassoc : get_history_filepath pyhash t
      = HISTORY_DIR ++ "/" ++ (sanitize_filename pyhash t ++ ".json") := by
    unfold get_history_filepath
    rw [String.append_assoc]
  have hsave : save_chat_history pyhash fs .success t m
      = (get_history_filepath pyhash t, FileEntry.json (JVal.jarr m))
          :: fs.filter (fun q => q.1 != get_history_filepath pyhash t) := rfl
  have hmem : sanitize_filename pyhash t
      ∈ listThreads (save_chat_history pyhash fs .success t m) := by
    rw [hsave, hassoc]
    unfold listThreads
    rw [listdir_prepend]
    rw [List.filter_cons_of_pos (by exact ends_with_json_append _)]
    rw [List.map_cons, drop_last5_append]
    exact List.mem_cons_self _ _
  exact ⟨hmem, fun h => by rw [h] at hmem; exact hmem⟩

/-- Witness for C6 (amended): an already-sanitized id is itself listed. -/
theorem listThreads_after_save_witness :
    "abc" ∈ listThreads (save_chat_history (fun _ => 0) [] .success "abc" []) :=
  (listThreads_after_save (fun _ => 0) [] "abc" []).2 (by decide)

/-! ### Dispatch-loop theorems -/

/-- C4 counterexample: the vulnerability tab's `invoke` has no surrounding
`try/except`, so with prompt `"test"` a raised exception propagates out of
the dispatch block (`Except.error`) instead of being caught and converted
into an assistant message. -/
theorem vuln_invoke_not_caught :
    vuln_dispatch [] "test" (Except.error "boom") = Except.error "boom" := rfl

/-- C4 (amended): the MITRE tab catches a raising `invoke` on a non-empty
prompt and records `Sorry, an error occurred: <e>` as the assistant
message, after which the thread file still parses as valid JSON holding
both the user and the assistant message; the vulnerability tab, however,
lets the exception propagate out of its dispatch block. -/
theorem agent_error_handling_amended (pyhash : String → Int) (fs : FS)
    (msgs vmsgs : List JVal) (active prompt e e' : String)
    (hp : prompt ≠ "") (hm : msgs.all is_valid_msg = true) :
    (mitre_dispatch pyhash fs msgs active prompt true (.exn e) .success .success).2
      = msgs ++ [user_msg prompt, assistant_msg (mitre_error_text e)] ∧
    load_chat_history pyhash
        (mitre_dispatch pyhash fs msgs active prompt true (.exn e) .success .success).1
        false active
      = msgs ++ [user_msg prompt, assistant_msg (mitre_error_text e)] ∧
    vuln_dispatch vmsgs prompt (Except.error e') = Except.error e' := by
  have hv : (msgs ++ [user_msg prompt] ++ [assistant_msg (mitre_error_text e)]).all
      is_valid_msg = true := by
    simp [List.all_append, hm, is_valid_msg_user, is_valid_msg_assistant]
  have hd : mitre_dispatch pyhash fs msgs active prompt true (.exn e)
        .success .success
      = (save_chat_history pyhash
            (save_chat_history pyhash fs .success active (msgs ++ [user_msg prompt]))
            .success active
            (msgs ++ [user_msg prompt] ++ [assistant_msg (mitre_error_text e)]),
          msgs ++ [user_msg prompt] ++ [assistant_msg (mitre_error_text e)]) := by
    simp [mitre_dispatch, hp]
  refine ⟨?_, ?_, ?_⟩
  · rw [hd]
    simp [List.append_assoc]
  · rw [hd]
    rw [load_save_of_valid pyhash _ active _ hv]
    simp [List.append_assoc]
  · simp [vuln_dispatch, hp]

/-- Witness for C4 (amended), matching the spec's Scenario 5: prompt
`"test"`, a raising agent, an initially empty thread. -/
theorem agent_error_handling_amended_witness :
    load_chat_history (fun _ => 0)
      (mitre_dispatch (fun _ => 0) [] [] "start-here" "test" true (.exn "boom")
        .success .success).1
      false "start-here"
      = [user_msg "test", assistant_msg (mitre_error_text "boom")] :=
  (agent_error_handling_amended (fun _ => 0) [] [] [] "start-here" "test" "boom"
    "x" (by decide) rfl).2.1

end MitreApp
